import Mathlib

/-
  Verification development for the uptimesquirrel agent
  (src/uptimesquirrel_agent/agent.py), shallowly embedded in Lean 4.

  Conventions of the embedding:
  - Python dicts become association lists (List (String × α)) with lookup
    returning the first binding, mirroring dict insertion order and access.
  - Timestamps and float arithmetic are modelled over the rationals.
  - Python int() on a float is truncation toward zero (pyInt below);
    Python round(x, 2) is round-half-even at two decimal places (pyRound2).
  - A Python method that can raise is embedded as an Except computation;
    an .error result means the exception propagates to the caller and any
    code after the raising point (including state writes) did not run.
-/

/-- Association-list lookup: first binding wins, as in a Python dict. -/
def alookup {α : Type} : List (String × α) → String → Option α
  | [], _ => none
  | (k', v) :: rest, k => if k' = k then some v else alookup rest k

/-- Python int() applied to a rational value: truncation toward zero. -/
def pyInt (q : ℚ) : ℤ := if 0 ≤ q then ⌊q⌋ else -⌊-q⌋

/-- Python round() to an integer: round-half-to-even. -/
def pyRoundInt (q : ℚ) : ℤ :=
  if q - ⌊q⌋ = 1 / 2 then (if 2 ∣ ⌊q⌋ then ⌊q⌋ else ⌊q⌋ + 1) else round q

/-- Python round(x, 2): round-half-to-even at two decimal places. -/
def pyRound2 (q : ℚ) : ℚ := (pyRoundInt (q * 100) : ℚ) / 100

/-- Python str.startswith(pre): character-level prefix test. -/
def pyStartswith (s pre : String) : Bool := pre.data.isPrefixOf s.data

/-- One entry of psutil.disk_io_counters(perdisk=True): the counter fields
the collector reads. -/
structure DiskCounters where
  read_count : ℤ
  write_count : ℤ
  read_bytes : ℤ
  write_bytes : ℤ
deriving DecidableEq

/-- One per-disk record of the dict built by DiskIOCollector.collect. -/
structure DiskIOData where
  read_bytes_per_sec : ℤ
  write_bytes_per_sec : ℤ
  read_iops : ℚ
  write_iops : ℚ
  read_count : ℤ
  write_count : ℤ
  read_bytes : ℤ
  write_bytes : ℤ
deriving DecidableEq

/-- The rate record built for one disk present in both samples
(agent.py lines 245-261). -/
def diskRateEntry (current previous : DiskCounters) (time_delta : ℚ) : DiskIOData :=
  { read_bytes_per_sec := pyInt (((current.read_bytes - previous.read_bytes : ℤ) : ℚ) / time_delta)
  , write_bytes_per_sec := pyInt (((current.write_bytes - previous.write_bytes : ℤ) : ℚ) / time_delta)
  , read_iops := pyRound2 (((current.read_count - previous.read_count : ℤ) : ℚ) / time_delta)
  , write_iops := pyRound2 (((current.write_count - previous.write_count : ℤ) : ℚ) / time_delta)
  , read_count := current.read_count
  , write_count := current.write_count
  , read_bytes := current.read_bytes
  , write_bytes := current.write_bytes }

/-- The rates loop of DiskIOCollector.collect (agent.py lines 240-261):
disks present in the previous sample get a rate record; disks absent from
the previous sample are skipped (the loop has no else branch); a division
with time_delta = 0 raises ZeroDivisionError, embedded as .error (). -/
def diskRatesLoop (last_counters : List (String × DiskCounters)) (time_delta : ℚ) :
    List (String × DiskCounters) → Except Unit (List (String × DiskIOData))
  | [] => .ok []
  | (disk, current) :: rest =>
    match alookup last_counters disk with
    | some previous =>
      if time_delta = 0 then .error ()
      else
        match diskRatesLoop last_counters time_delta rest with
        | .ok tail => .ok ((disk, diskRateEntry current previous time_delta) :: tail)
        | .error e => .error e
    | none => diskRatesLoop last_counters time_delta rest

/-- The first-run branch of DiskIOCollector.collect (agent.py lines 262-274):
zero rates, raw counters copied. -/
def diskFirstRun : List (String × DiskCounters) → List (String × DiskIOData)
  | [] => []
  | (disk, current) :: rest =>
    (disk,
      { read_bytes_per_sec := 0
      , write_bytes_per_sec := 0
      , read_iops := 0
      , write_iops := 0
      , read_count := current.read_count
      , write_count := current.write_count
      , read_bytes := current.read_bytes
      , write_bytes := current.write_bytes }) :: diskFirstRun rest

/-- DiskIOCollector state: self.last_counters and self.last_time, both None
after __init__ and always assigned together. -/
def DiskIOState : Type := Option (List (String × DiskCounters) × ℚ)

/-- DiskIOCollector.collect (agent.py lines 226-280).  Takes the current
counters and the current time as inputs (psutil and time.time are external).
Returns the io_data dict together with the updated collector state, or
.error () when a ZeroDivisionError propagates (in which case the state
assignment at lines 277-278 was not reached, so the state is unchanged).
The rates branch runs only when both self.last_counters and self.last_time
are truthy (a None or empty dict, and a None or zero time, are falsy). -/
def diskIOCollect (s : DiskIOState) (counters : List (String × DiskCounters)) (now : ℚ) :
    Except Unit (List (String × DiskIOData) × DiskIOState) :=
  if counters = [] then .ok ([], s)
  else
    let io_data : Except Unit (List (String × DiskIOData)) :=
      match s with
      | some (last_counters, last_time) =>
        if last_counters = [] ∨ last_time = 0 then .ok (diskFirstRun counters)
        else diskRatesLoop last_counters (now - last_time) counters
      | none => .ok (diskFirstRun counters)
    match io_data with
    | .ok d => .ok (d, some (counters, now))
    | .error e => .error e

/-- One entry of psutil.net_io_counters(pernic=True): the counter fields
the collector reads. -/
structure NetCounters where
  bytes_sent : ℤ
  bytes_recv : ℤ
  packets_sent : ℤ
  packets_recv : ℤ
  errin : ℤ
  errout : ℤ
  dropin : ℤ
  dropout : ℤ
deriving DecidableEq

/-- One per-interface record of the dict built by NetworkCollector.collect. -/
structure NetData where
  bytes_sent : ℤ
  bytes_recv : ℤ
  packets_sent : ℤ
  packets_recv : ℤ
  bytes_sent_per_sec : ℤ
  bytes_recv_per_sec : ℤ
  packets_sent_per_sec : ℚ
  packets_recv_per_sec : ℚ
  errin : ℤ
  errout : ℤ
  dropin : ℤ
  dropout : ℤ
deriving DecidableEq

/-- The rate record built for one non-loopback interface present in both
samples (agent.py lines 314-334). -/
def netRateEntry (current previous : NetCounters) (time_delta : ℚ) : NetData :=
  { bytes_sent := current.bytes_sent
  , bytes_recv := current.bytes_recv
  , packets_sent := current.packets_sent
  , packets_recv := current.packets_recv
  , bytes_sent_per_sec := pyInt (((current.bytes_sent - previous.bytes_sent : ℤ) : ℚ) / time_delta)
  , bytes_recv_per_sec := pyInt (((current.bytes_recv - previous.bytes_recv : ℤ) : ℚ) / time_delta)
  , packets_sent_per_sec := pyRound2 (((current.packets_sent - previous.packets_sent : ℤ) : ℚ) / time_delta)
  , packets_recv_per_sec := pyRound2 (((current.packets_recv - previous.packets_recv : ℤ) : ℚ) / time_delta)
  , errin := current.errin
  , errout := current.errout
  , dropin := current.dropin
  , dropout := current.dropout }

/-- The rates loop of NetworkCollector.collect (agent.py lines 304-334):
interfaces whose name starts with "lo" are skipped before anything else;
interfaces present in the previous sample get a rate record; interfaces
absent from the previous sample are skipped (no else branch); a division
with time_delta = 0 raises ZeroDivisionError, embedded as .error (). -/
def netRatesLoop (last_counters : List (String × NetCounters)) (time_delta : ℚ) :
    List (String × NetCounters) → Except Unit (List (String × NetData))
  | [] => .ok []
  | (iface, current) :: rest =>
    if pyStartswith iface "lo" then netRatesLoop last_counters time_delta rest
    else
      match alookup last_counters iface with
      | some previous =>
        if time_delta = 0 then .error ()
        else
          match netRatesLoop last_counters time_delta rest with
          | .ok tail => .ok ((iface, netRateEntry current previous time_delta) :: tail)
          | .error e => .error e
      | none => netRatesLoop last_counters time_delta rest

/-- The first-run branch of NetworkCollector.collect (agent.py lines 337-356):
loopback-prefixed interfaces skipped, zero rates, raw counters copied. -/
def netFirstRun : List (String × NetCounters) → List (String × NetData)
  | [] => []
  | (iface, current) :: rest =>
    if pyStartswith iface "lo" then netFirstRun rest
    else
      (iface,
        { bytes_sent := current.bytes_sent
        , bytes_recv := current.bytes_recv
        , packets_sent := current.packets_sent
        , packets_recv := current.packets_recv
        , bytes_sent_per_sec := 0
        , bytes_recv_per_sec := 0
        , packets_sent_per_sec := 0
        , packets_recv_per_sec := 0
        , errin := current.errin
        , errout := current.errout
        , dropin := current.dropin
        , dropout := current.dropout }) :: netFirstRun rest

/-- NetworkCollector state: self.last_counters and self.last_time. -/
def NetState : Type := Option (List (String × NetCounters) × ℚ)

/-- NetworkCollector.collect (agent.py lines 290-368).  Unlike the disk
collector there is no early return on empty counters: the state assignment
at lines 359-360 stores the entire current counters dict (loopback entries
included) whenever no exception was raised. -/
def netCollect (s : NetState) (counters : List (String × NetCounters)) (now : ℚ) :
    Except Unit (List (String × NetData) × NetState) :=
  let network_data : Except Unit (List (String × NetData)) :=
    match s with
    | some (last_counters, last_time) =>
      if last_counters = [] ∨ last_time = 0 then .ok (netFirstRun counters)
      else netRatesLoop last_counters (now - last_time) counters
    | none => .ok (netFirstRun counters)
  match network_data with
  | .ok d => .ok (d, some (counters, now))
  | .error e => .error e

/-- State touched by UptimeSquirrelAgent.fetch_remote_config:
self.remote_thresholds (empty after __init__), self.threshold_version
(0 after __init__) and self.config_check_interval (300 after __init__). -/
structure ConfigState where
  remote_thresholds : List (String × ℚ)
  threshold_version : ℤ
  config_check_interval : ℤ
deriving DecidableEq

/-- A decoded response to GET /agent/config: the HTTP status code and the
three JSON fields the agent reads, each optional because the code reads
them with dict.get and a default. -/
structure ConfigResponse where
  status : ℤ
  threshold_version : Option ℤ
  thresholds : Option (List (String × ℚ))
  check_interval : Option ℤ

/-- UptimeSquirrelAgent.fetch_remote_config (agent.py lines 782-812),
as a function of the decoded response.  On HTTP 200 the thresholds and
version are replaced only when the server version is strictly greater than
the held one, and the check interval is overwritten unconditionally with
the response value (default 300).  On 404 and every other status the state
is left unchanged. -/
def fetch_remote_config (s : ConfigState) (r : ConfigResponse) : ConfigState :=
  if r.status = 200 then
    let new_version := r.threshold_version.getD 0
    let s1 :=
      if new_version > s.threshold_version then
        { s with remote_thresholds := r.thresholds.getD []
               , threshold_version := new_version }
      else s
    { s1 with config_check_interval := r.check_interval.getD 300 }
  else s

/-- UptimeSquirrelAgent.get_threshold (agent.py lines 814-825).  The local
configuration file lookup (config.getfloat with key metric_type plus a
_threshold suffix) is abstracted as a function from the metric name to an
optional configured value; the float() coercion of a remote value is the
identity in the rational model. -/
def get_threshold (remote_thresholds : List (String × ℚ))
    (local_config : String → Option ℚ) (metric_type : String) (default : ℚ) : ℚ :=
  match alookup remote_thresholds metric_type with
  | some threshold => threshold
  | none => (local_config metric_type).getD default

/-- The active_thresholds block of a metric snapshot. -/
structure ActiveThresholds where
  cpu : ℚ
  memory : ℚ
  disk : ℚ
  version : ℤ
  source : String
deriving DecidableEq

/-- The active_thresholds dict built by UptimeSquirrelAgent.collect_metrics
(agent.py lines 865-871): the source field is "remote" exactly when the
remote_thresholds dict is truthy, i.e. non-empty. -/
def active_thresholds (remote_thresholds : List (String × ℚ))
    (local_config : String → Option ℚ) (version : ℤ) : ActiveThresholds :=
  { cpu := get_threshold remote_thresholds local_config "cpu" 80
  , memory := get_threshold remote_thresholds local_config "memory" 85
  , disk := get_threshold remote_thresholds local_config "disk" 90
  , version := version
  , source := if remote_thresholds = [] then "local" else "remote" }

/-- MetricBuffer capacity: deque(maxlen=100), max_size default of __init__. -/
def metric_buffer_max_size : ℕ := 100

/-- MetricBuffer.add (agent.py lines 605-608): deque append with
maxlen 100, dropping the oldest entry when at capacity.  The buffer list
keeps insertion order with the oldest entry at the head. -/
def buffer_add {M : Type} (buffer : List M) (m : M) : List M :=
  (buffer ++ [m]).drop (buffer.length + 1 - metric_buffer_max_size)

/-- MetricBuffer.get_all (agent.py lines 610-615): returns the held entries
in insertion order and clears the buffer.  The pair is (returned list,
buffer content afterwards). -/
def buffer_get_all {M : Type} (buffer : List M) : List M × List M := (buffer, [])

/-- MetricBuffer.size (agent.py lines 617-620). -/
def buffer_size {M : Type} (buffer : List M) : ℕ := buffer.length

/-- self.max_consecutive_failures, set to 5 in __init__ (agent.py line 643). -/
def max_consecutive_failures : ℕ := 5

/-- The reporter state: self.consecutive_failures and the MetricBuffer. -/
structure ReportState (M : Type) where
  consecutive_failures : ℕ
  buffer : List M
deriving DecidableEq

/-- UptimeSquirrelAgent.report_metrics (agent.py lines 1012-1065) for a
snapshot m.  deliver models the main POST plus raise_for_status: true means
success, false means a RequestException reaches the except clause.  Returns
the new state together with the list of snapshots POSTed this call, in
order.  On success the failure counter resets, the buffer is drained with
get_all and every drained entry is POSTed once; an exception from a drained
POST is caught and logged, the entry is not re-added.  On failure the
counter is incremented and the snapshot is buffered only while the counter
is below max_consecutive_failures. -/
def report_metrics {M : Type} (deliver : M → Bool) (s : ReportState M) (m : M) :
    ReportState M × List M :=
  if deliver m then
    if 0 < buffer_size s.buffer then
      let drained := buffer_get_all s.buffer
      (⟨0, drained.2⟩, m :: drained.1)
    else
      (⟨0, s.buffer⟩, [m])
  else
    let failures := s.consecutive_failures + 1
    if failures < max_consecutive_failures then
      (⟨failures, buffer_add s.buffer m⟩, [m])
    else
      (⟨failures, s.buffer⟩, [m])

/-- An abstract MetricBuffer operation, for stating properties over every
sequence of buffer operations. -/
inductive BufferOp (M : Type) where
  | push : M → BufferOp M
  | drain : BufferOp M

/-- Apply one MetricBuffer operation to the buffer content: push is
MetricBuffer.add, drain is the state effect of MetricBuffer.get_all. -/
def bufferApplyOp {M : Type} (buffer : List M) : BufferOp M → List M
  | .push m => buffer_add buffer m
  | .drain => (buffer_get_all buffer).2

theorem diskRatesLoop_ok_of_ne_zero (lc : List (String × DiskCounters)) (dt : ℚ)
    (hdt : dt ≠ 0) (b : List (String × DiskCounters)) :
    ∃ out, diskRatesLoop lc dt b = .ok out := by
  induction b with
  | nil => exact ⟨[], rfl⟩
  | cons hd rest ih =>
    obtain ⟨d, cur⟩ := hd
    obtain ⟨tail, htail⟩ := ih
    cases hlc : alookup lc d with
    | some previous =>
      exact ⟨(d, diskRateEntry cur previous dt) :: tail,
        by simp [diskRatesLoop, hlc, hdt, htail]⟩
    | none => exact ⟨tail, by simp [diskRatesLoop, hlc, htail]⟩

theorem diskRatesLoop_lookup_some (lc : List (String × DiskCounters)) (dt : ℚ)
    (hdt : dt ≠ 0) (b : List (String × DiskCounters)) (k : String)
    (c p : DiskCounters) (hb : alookup b k = some c) (hp : alookup lc k = some p) :
    ∃ out, diskRatesLoop lc dt b = .ok out ∧
      alookup out k = some (diskRateEntry c p dt) := by
  induction b with
  | nil => simp [alookup] at hb
  | cons hd rest ih =>
    obtain ⟨d, cur⟩ := hd
    rw [alookup] at hb
    by_cases hdk : d = k
    · rw [if_pos hdk] at hb
      injection hb with hb'
      subst hdk
      obtain ⟨tail, htail⟩ := diskRatesLoop_ok_of_ne_zero lc dt hdt rest
      refine ⟨(d, diskRateEntry cur p dt) :: tail, ?_, ?_⟩
      · simp [diskRatesLoop, hp, hdt, htail]
      · simp [alookup, hb']
    · rw [if_neg hdk] at hb
      obtain ⟨tail, htail, hlook⟩ := ih hb
      cases hlc : alookup lc d with
      | some previous =>
        refine ⟨(d, diskRateEntry cur previous dt) :: tail, ?_, ?_⟩
        · simp [diskRatesLoop, hlc, hdt, htail]
        · simp [alookup, hdk, hlook]
      | none => exact ⟨tail, by simp [diskRatesLoop, hlc, htail], hlook⟩

theorem diskRatesLoop_lookup_none (lc : List (String × DiskCounters)) (dt : ℚ)
    (b : List (String × DiskCounters)) (k : String) (out : List (String × DiskIOData))
    (hok : diskRatesLoop lc dt b = .ok out) (hk : alookup lc k = none) :
    alookup out k = none := by
  induction b generalizing out with
  | nil =>
    rw [diskRatesLoop] at hok
    injection hok with hok
    subst hok
    rfl
  | cons hd rest ih =>
    obtain ⟨d, cur⟩ := hd
    rw [diskRatesLoop] at hok
    cases hlc : alookup lc d with
    | some previous =>
      simp only [hlc] at hok
      by_cases hdt : dt = 0
      · simp [hdt] at hok
      · rw [if_neg hdt] at hok
        cases hrest : diskRatesLoop lc dt rest with
        | ok tail =>
          rw [hrest] at hok
          injection hok with hok
          subst hok
          have hdk : d ≠ k := by
            intro h
            rw [h, hk] at hlc
            exact Option.noConfusion hlc
          rw [alookup, if_neg hdk]
          exact ih tail hrest
        | error e => rw [hrest] at hok; exact Except.noConfusion hok
    | none =>
      simp only [hlc] at hok
      exact ih out hok

theorem diskRatesLoop_error_of_shared (lc : List (String × DiskCounters))
    (b : List (String × DiskCounters)) (k : String) (c p : DiskCounters)
    (hp : alookup lc k = some p) (hb : alookup b k = some c) :
    diskRatesLoop lc 0 b = .error () := by
  induction b with
  | nil => simp [alookup] at hb
  | cons hd rest ih =>
    obtain ⟨d, cur⟩ := hd
    rw [alookup] at hb
    by_cases hdk : d = k
    · subst hdk
      simp [diskRatesLoop, hp]
    · rw [if_neg hdk] at hb
      cases hlc : alookup lc d with
      | some previous => simp [diskRatesLoop, hlc]
      | none =>
        rw [diskRatesLoop, hlc]
        exact ih hb

theorem netRatesLoop_ok_of_ne_zero (lc : List (String × NetCounters)) (dt : ℚ)
    (hdt : dt ≠ 0) (b : List (String × NetCounters)) :
    ∃ out, netRatesLoop lc dt b = .ok out := by
  induction b with
  | nil => exact ⟨[], rfl⟩
  | cons hd rest ih =>
    obtain ⟨d, cur⟩ := hd
    obtain ⟨tail, htail⟩ := ih
    by_cases hlo : pyStartswith d "lo" = true
    · exact ⟨tail, by simp [netRatesLoop, hlo, htail]⟩
    · cases hlc : alookup lc d with
      | some previous =>
        exact ⟨(d, netRateEntry cur previous dt) :: tail,
          by simp [netRatesLoop, hlo, hlc, hdt, htail]⟩
      | none => exact ⟨tail, by simp [netRatesLoop, hlo, hlc, htail]⟩

theorem netRatesLoop_lookup_some (lc : List (String × NetCounters)) (dt : ℚ)
    (hdt : dt ≠ 0) (b : List (String × NetCounters)) (k : String)
    (hklo : pyStartswith k "lo" = false) (c p : NetCounters)
    (hb : alookup b k = some c) (hp : alookup lc k = some p) :
    ∃ out, netRatesLoop lc dt b = .ok out ∧
      alookup out k = some (netRateEntry c p dt) := by
  induction b with
  | nil => simp [alookup] at hb
  | cons hd rest ih =>
    obtain ⟨d, cur⟩ := hd
    rw [alookup] at hb
    by_cases hdk : d = k
    · rw [if_pos hdk] at hb
      injection hb with hb'
      subst hdk
      obtain ⟨tail, htail⟩ := netRatesLoop_ok_of_ne_zero lc dt hdt rest
      refine ⟨(d, netRateEntry cur p dt) :: tail, ?_, ?_⟩
      · simp [netRatesLoop, hklo, hp, hdt, htail]
      · simp [alookup, hb']
    · rw [if_neg hdk] at hb
      obtain ⟨tail, htail, hlook⟩ := ih hb
      by_cases hlo : pyStartswith d "lo" = true
      · exact ⟨tail, by simp [netRatesLoop, hlo, htail], hlook⟩
      · cases hlc : alookup lc d with
        | some previous =>
          refine ⟨(d, netRateEntry cur previous dt) :: tail, ?_, ?_⟩
          · simp [netRatesLoop, hlo, hlc, hdt, htail]
          · simp [alookup, hdk, hlook]
        | none => exact ⟨tail, by simp [netRatesLoop, hlo, hlc, htail], hlook⟩

theorem netRatesLoop_lookup_none (lc : List (String × NetCounters)) (dt : ℚ)
    (b : List (String × NetCounters)) (k : String) (out : List (String × NetData))
    (hok : netRatesLoop lc dt b = .ok out)
    (hk : pyStartswith k "lo" = true ∨ alookup lc k = none) :
    alookup out k = none := by
  induction b generalizing out with
  | nil =>
    rw [netRatesLoop] at hok
    injection hok with hok
    subst hok
    rfl
  | cons hd rest ih =>
    obtain ⟨d, cur⟩ := hd
    rw [netRatesLoop] at hok
    by_cases hlo : pyStartswith d "lo" = true
    · rw [if_pos hlo] at hok
      exact ih out hok
    · rw [if_neg hlo] at hok
      cases hlc : alookup lc d with
      | some previous =>
        simp only [hlc] at hok
        by_cases hdt : dt = 0
        · simp [hdt] at hok
        · rw [if_neg hdt] at hok
          cases hrest : netRatesLoop lc dt rest with
          | ok tail =>
            rw [hrest] at hok
            injection hok with hok
            subst hok
            have hdk : d ≠ k := by
              intro h
              cases hk with
              | inl hk => rw [h] at hlo; exact hlo hk
              | inr hk => rw [h, hk] at hlc; exact Option.noConfusion hlc
            rw [alookup, if_neg hdk]
            exact ih tail hrest
          | error e => rw [hrest] at hok; exact Except.noConfusion hok
      | none =>
        simp only [hlc] at hok
        exact ih out hok

theorem netRatesLoop_error_of_shared (lc : List (String × NetCounters))
    (b : List (String × NetCounters)) (k : String) (hklo : pyStartswith k "lo" = false)
    (c p : NetCounters) (hp : alookup lc k = some p) (hb : alookup b k = some c) :
    netRatesLoop lc 0 b = .error () := by
  induction b with
  | nil => simp [alookup] at hb
  | cons hd rest ih =>
    obtain ⟨d, cur⟩ := hd
    rw [alookup] at hb
    by_cases hdk : d = k
    · subst hdk
      simp [netRatesLoop, hklo, hp]
    · rw [if_neg hdk] at hb
      by_cases hlo : pyStartswith d "lo" = true
      · rw [netRatesLoop, if_pos hlo]
        exact ih hb
      · cases hlc : alookup lc d with
        | some previous => simp [netRatesLoop, hlo, hlc]
        | none =>
          rw [netRatesLoop, if_neg hlo]
          simp only [hlc]
          exact ih hb

theorem netFirstRun_lookup_none_of_lo (b : List (String × NetCounters)) (k : String)
    (hklo : pyStartswith k "lo" = true) : alookup (netFirstRun b) k = none := by
  induction b with
  | nil => rfl
  | cons hd rest ih =>
    obtain ⟨d, cur⟩ := hd
    by_cases hlo : pyStartswith d "lo" = true
    · rw [netFirstRun, if_pos hlo]
      exact ih
    · rw [netFirstRun, if_neg hlo]
      have hdk : d ≠ k := by
        intro h
        rw [h] at hlo
        exact hlo hklo
      rw [alookup, if_neg hdk]
      exact ih

/-- C1: for each rate-bearing domain (disk I/O, network), given a stored
previous sample with counters a at time t0 (a previous sample the code
recognises: non-empty, non-zero time) and current counters b at time now
with now - t0 > 0, the update returns, for every key present in both
samples, each tracked counter field's rate (b - a) / (now - t0); byte-rate
fields are taken to whole units by Python int() (truncation toward zero,
i.e. rounding down for the non-negative rates of non-decreasing counters)
and operations/packets-per-second fields are rounded to two decimal
places; the stored state is then overwritten with (b, now). -/
theorem C1_rate_update
    (a b : List (String × DiskCounters)) (an bn : List (String × NetCounters))
    (t0 now : ℚ) (ha : a ≠ []) (han : an ≠ []) (ht0 : t0 ≠ 0)
    (hdt : 0 < now - t0) :
    (∀ k c p, alookup b k = some c → alookup a k = some p →
      ∃ out, diskIOCollect (some (a, t0)) b now = .ok (out, some (b, now)) ∧
        alookup out k = some
          { read_bytes_per_sec := pyInt (((c.read_bytes - p.read_bytes : ℤ) : ℚ) / (now - t0))
          , write_bytes_per_sec := pyInt (((c.write_bytes - p.write_bytes : ℤ) : ℚ) / (now - t0))
          , read_iops := pyRound2 (((c.read_count - p.read_count : ℤ) : ℚ) / (now - t0))
          , write_iops := pyRound2 (((c.write_count - p.write_count : ℤ) : ℚ) / (now - t0))
          , read_count := c.read_count
          , write_count := c.write_count
          , read_bytes := c.read_bytes
          , write_bytes := c.write_bytes }) ∧
    (∀ k c p, pyStartswith k "lo" = false → alookup bn k = some c → alookup an k = some p →
      ∃ out, netCollect (some (an, t0)) bn now = .ok (out, some (bn, now)) ∧
        alookup out k = some
          { bytes_sent := c.bytes_sent
          , bytes_recv := c.bytes_recv
          , packets_sent := c.packets_sent
          , packets_recv := c.packets_recv
          , bytes_sent_per_sec := pyInt (((c.bytes_sent - p.bytes_sent : ℤ) : ℚ) / (now - t0))
          , bytes_recv_per_sec := pyInt (((c.bytes_recv - p.bytes_recv : ℤ) : ℚ) / (now - t0))
          , packets_sent_per_sec := pyRound2 (((c.packets_sent - p.packets_sent : ℤ) : ℚ) / (now - t0))
          , packets_recv_per_sec := pyRound2 (((c.packets_recv - p.packets_recv : ℤ) : ℚ) / (now - t0))
          , errin := c.errin
          , errout := c.errout
          , dropin := c.dropin
          , dropout := c.dropout }) := by
  have hdtne : now - t0 ≠ 0 := ne_of_gt hdt
  constructor
  · intro k c p hb hp
    have hbne : b ≠ [] := by
      intro h
      subst h
      simp [alookup] at hb
    obtain ⟨out, hok, hlook⟩ := diskRatesLoop_lookup_some a (now - t0) hdtne b k c p hb hp
    refine ⟨out, ?_, hlook⟩
    simp [diskIOCollect, hbne, ha, ht0, hok]
  · intro k c p hklo hb hp
    obtain ⟨out, hok, hlook⟩ := netRatesLoop_lookup_some an (now - t0) hdtne bn k hklo c p hb hp
    refine ⟨out, ?_, hlook⟩
    simp [netCollect, han, ht0, hok]

/-- Witness for C1 at the end-to-end example of the spec: read_bytes 1000
then 3000 two seconds apart gives 1000 bytes per second, and the stored
state becomes the current sample. -/
theorem C1_rate_update_witness :
    (0:ℚ) < 3 - 1 ∧
    (∃ out, diskIOCollect (some ([("sda", ⟨0, 0, 1000, 0⟩)], 1))
        [("sda", ⟨0, 0, 3000, 0⟩)] 3 =
        .ok (out, some ([("sda", ⟨0, 0, 3000, 0⟩)], 3)) ∧
      alookup out "sda" = some ⟨1000, 0, 0, 0, 0, 0, 3000, 0⟩) := by
  constructor
  · norm_num
  · obtain ⟨out, hok, hlook⟩ :=
      (C1_rate_update [("sda", ⟨0, 0, 1000, 0⟩)] [("sda", ⟨0, 0, 3000, 0⟩)]
        [("eth0", ⟨0, 0, 0, 0, 0, 0, 0, 0⟩)] [("eth0", ⟨0, 0, 0, 0, 0, 0, 0, 0⟩)] 1 3
        (by simp) (by simp) (by norm_num) (by norm_num)).1
        "sda" ⟨0, 0, 3000, 0⟩ ⟨0, 0, 1000, 0⟩ (by simp [alookup]) (by simp [alookup])
    refine ⟨out, hok, ?_⟩
    rw [hlook]
    norm_num [pyInt, pyRound2, pyRoundInt]

/-- C2 counterexample: with a stored previous sample taken at time 1 and a
current sample at the same time 1 (dt = 0) sharing the disk key, the
update does not return zero rates: it raises ZeroDivisionError (the claim
says the degenerate update returns zero rates and does not raise). -/
theorem C2_counterexample :
    diskIOCollect (some ([("sda", ⟨0, 0, 0, 0⟩)], 1)) [("sda", ⟨0, 0, 0, 0⟩)] 1 =
      .error () := by
  norm_num [diskIOCollect, diskRatesLoop, alookup]

/-- C2 amended: there is no dt <= 0 guard in either collector.  With a
previous sample stored and a key shared between the samples, a call at the
very same timestamp divides by zero and raises (so the stored state is not
updated only because the method aborts), and a call with now < t0 returns
rates computed as (b - a) / dt — negative for increased counters — while
overwriting the stored state with (b, now). -/
theorem C2_no_degenerate_guard
    (a b : List (String × DiskCounters)) (t0 now : ℚ) (k : String)
    (c p : DiskCounters) (ht0 : t0 ≠ 0)
    (hb : alookup b k = some c) (hp : alookup a k = some p) :
    ((now = t0 → diskIOCollect (some (a, t0)) b now = .error ()) ∧
     (now - t0 < 0 →
       ∃ out, diskIOCollect (some (a, t0)) b now = .ok (out, some (b, now)) ∧
         alookup out k = some (diskRateEntry c p (now - t0)))) ∧
    (∀ (an bn : List (String × NetCounters)) (kn : String) (cn pn : NetCounters),
      pyStartswith kn "lo" = false → alookup bn kn = some cn → alookup an kn = some pn →
      (now = t0 → netCollect (some (an, t0)) bn now = .error ()) ∧
      (now - t0 < 0 →
        ∃ out, netCollect (some (an, t0)) bn now = .ok (out, some (bn, now)) ∧
          alookup out kn = some (netRateEntry cn pn (now - t0)))) := by
  have ha : a ≠ [] := by
    intro h
    subst h
    simp [alookup] at hp
  have hbne : b ≠ [] := by
    intro h
    subst h
    simp [alookup] at hb
  constructor
  · constructor
    · intro hnow
      subst hnow
      have herr := diskRatesLoop_error_of_shared a b k c p hp hb
      simp [diskIOCollect, hbne, ha, ht0, sub_self, herr]
    · intro hneg
      have hdtne : now - t0 ≠ 0 := ne_of_lt hneg
      obtain ⟨out, hok, hlook⟩ := diskRatesLoop_lookup_some a (now - t0) hdtne b k c p hb hp
      refine ⟨out, ?_, hlook⟩
      simp [diskIOCollect, hbne, ha, ht0, hok]
  · intro an bn kn cn pn hklo hbn hpn
    have hane : an ≠ [] := by
      intro h
      subst h
      simp [alookup] at hpn
    constructor
    · intro hnow
      subst hnow
      have herr := netRatesLoop_error_of_shared an bn kn hklo cn pn hpn hbn
      simp [netCollect, hane, ht0, sub_self, herr]
    · intro hneg
      have hdtne : now - t0 ≠ 0 := ne_of_lt hneg
      obtain ⟨out, hok, hlook⟩ := netRatesLoop_lookup_some an (now - t0) hdtne bn kn hklo cn pn hbn hpn
      refine ⟨out, ?_, hlook⟩
      simp [netCollect, hane, ht0, hok]

/-- Witness for the amended C2: at a concrete stale-timestamp call the
disk update raises. -/
theorem C2_no_degenerate_guard_witness :
    (1:ℚ) ≠ 0 ∧
    diskIOCollect (some ([("sda", ⟨0, 0, 0, 0⟩)], 1)) [("sda", ⟨1, 1, 1, 1⟩)] 1 =
      .error () := by
  constructor
  · norm_num
  · exact ((C2_no_degenerate_guard [("sda", ⟨0, 0, 0, 0⟩)] [("sda", ⟨1, 1, 1, 1⟩)]
      1 1 "sda" ⟨1, 1, 1, 1⟩ ⟨0, 0, 0, 0⟩ (by norm_num)
      (by simp [alookup]) (by simp [alookup])).1).1 rfl

/-- C7 counterexample: with previous sample key set only containing sda, a
current sample containing sda and the new disk sdb produces an output that
omits sdb entirely — the claim says sdb appears with zero rates and is
never omitted. -/
theorem C7_counterexample :
    diskIOCollect (some ([("sda", ⟨0, 0, 0, 0⟩)], 1))
        [("sda", ⟨0, 0, 0, 0⟩), ("sdb", ⟨1, 2, 3, 4⟩)] 2 =
      .ok ([("sda", ⟨0, 0, 0, 0, 0, 0, 0, 0⟩)],
        some ([("sda", ⟨0, 0, 0, 0⟩), ("sdb", ⟨1, 2, 3, 4⟩)], 2)) ∧
    alookup [(("sda" : String), (⟨0, 0, 0, 0, 0, 0, 0, 0⟩ : DiskIOData))] "sdb" = none := by
  have hne : ("sda" : String) ≠ "sdb" := by decide
  constructor
  · norm_num [diskIOCollect, diskRatesLoop, diskRateEntry, alookup, hne,
      pyInt, pyRound2, pyRoundInt]
    simp
  · simp [alookup, hne]

/-- C7 amended: when a previous snapshot exists, a key present in the
current counters but absent from the previous counters is omitted from the
returned output for that cycle (no zero-rate entry is produced for it) and
no exception is raised; the full current counters, new key included, are
stored as the previous-sample state, so the key is reported with rates
from the next cycle on. -/
theorem C7_new_key_omitted
    (a b : List (String × DiskCounters)) (t0 now : ℚ) (k : String) (c : DiskCounters)
    (ha : a ≠ []) (ht0 : t0 ≠ 0) (hdt : now - t0 ≠ 0)
    (hb : alookup b k = some c) (hk : alookup a k = none) :
    (∃ out, diskIOCollect (some (a, t0)) b now = .ok (out, some (b, now)) ∧
      alookup out k = none) ∧
    (∀ (an bn : List (String × NetCounters)) (kn : String) (cn : NetCounters),
      an ≠ [] → alookup bn kn = some cn → alookup an kn = none →
      ∃ out, netCollect (some (an, t0)) bn now = .ok (out, some (bn, now)) ∧
        alookup out kn = none) := by
  have hbne : b ≠ [] := by
    intro h
    subst h
    simp [alookup] at hb
  constructor
  · obtain ⟨out, hok⟩ := diskRatesLoop_ok_of_ne_zero a (now - t0) hdt b
    refine ⟨out, ?_, diskRatesLoop_lookup_none a (now - t0) b k out hok hk⟩
    simp [diskIOCollect, hbne, ha, ht0, hok]
  · intro an bn kn cn hane hbn hkn
    obtain ⟨out, hok⟩ := netRatesLoop_ok_of_ne_zero an (now - t0) hdt bn
    refine ⟨out, ?_, netRatesLoop_lookup_none an (now - t0) bn kn out hok (Or.inr hkn)⟩
    simp [netCollect, hane, ht0, hok]

/-- Witness for the amended C7: the new disk sdb is absent from the
returned output while the stored state retains it. -/
theorem C7_new_key_omitted_witness :
    ∃ out, diskIOCollect (some ([("sda", ⟨0, 0, 0, 0⟩)], 1))
        [("sda", ⟨0, 0, 0, 0⟩), ("sdb", ⟨5, 6, 7, 8⟩)] 3 =
        .ok (out, some ([("sda", ⟨0, 0, 0, 0⟩), ("sdb", ⟨5, 6, 7, 8⟩)], 3)) ∧
      alookup out "sdb" = none :=
  (C7_new_key_omitted [("sda", ⟨0, 0, 0, 0⟩)]
    [("sda", ⟨0, 0, 0, 0⟩), ("sdb", ⟨5, 6, 7, 8⟩)] 1 3 "sdb" ⟨5, 6, 7, 8⟩
    (by simp) (by norm_num) (by norm_num)
    (by simp [alookup]) (by simp [alookup])).1

/-- C8 counterexample: with a previous sample stored, a current sample
holding the loopback entry "lo" is excluded from the returned network data
but the collector stores the entire current counters dict, loopback entry
included, as the previous-sample state — the claim says loopback entries
are not stored. -/
theorem C8_counterexample :
    netCollect (some ([("eth0", ⟨0, 0, 0, 0, 0, 0, 0, 0⟩)], 1))
        [("eth0", ⟨0, 0, 0, 0, 0, 0, 0, 0⟩), ("lo", ⟨5, 5, 5, 5, 5, 5, 5, 5⟩)] 2 =
      .ok ([("eth0", ⟨0, 0, 0, 0, 0, 0, 0, 0, 0, 0, 0, 0⟩)],
        some ([("eth0", ⟨0, 0, 0, 0, 0, 0, 0, 0⟩), ("lo", ⟨5, 5, 5, 5, 5, 5, 5, 5⟩)], 2)) ∧
    alookup [(("eth0" : String), (⟨0, 0, 0, 0, 0, 0, 0, 0⟩ : NetCounters)),
      ("lo", ⟨5, 5, 5, 5, 5, 5, 5, 5⟩)] "lo" = some ⟨5, 5, 5, 5, 5, 5, 5, 5⟩ := by
  have h1 : pyStartswith "eth0" "lo" = false := by decide
  have h2 : pyStartswith "lo" "lo" = true := by decide
  constructor
  · norm_num [netCollect, netRatesLoop, netRateEntry, alookup, h1, h2,
      pyInt, pyRound2, pyRoundInt]
  · simp [alookup]

/-- C8 amended: on every network collection that returns, entries whose
interface key has the "lo" prefix are excluded from the returned network
data, but the stored previous-sample state is the entire current counters
mapping, which retains any loopback entries for the next cycle. -/
theorem C8_loopback_excluded_but_stored
    (s : NetState) (counters : List (String × NetCounters)) (now : ℚ)
    (out : List (String × NetData)) (s' : NetState)
    (hok : netCollect s counters now = .ok (out, s')) :
    s' = some (counters, now) ∧
    ∀ k, pyStartswith k "lo" = true → alookup out k = none := by
  unfold netCollect at hok
  cases s with
  | none =>
    simp only [] at hok
    injection hok with hok
    injection hok with hout hst
    subst hout
    subst hst
    exact ⟨rfl, fun k hk => netFirstRun_lookup_none_of_lo counters k hk⟩
  | some lclt =>
    obtain ⟨lc, lt⟩ := lclt
    by_cases hfr : lc = [] ∨ lt = 0
    · simp only [if_pos hfr] at hok
      injection hok with hok
      injection hok with hout hst
      subst hout
      subst hst
      exact ⟨rfl, fun k hk => netFirstRun_lookup_none_of_lo counters k hk⟩
    · simp only [if_neg hfr] at hok
      cases hrl : netRatesLoop lc (now - lt) counters with
      | ok o =>
        rw [hrl] at hok
        injection hok with hok
        injection hok with hout hst
        subst hout
        subst hst
        exact ⟨rfl, fun k hk =>
          netRatesLoop_lookup_none lc (now - lt) counters k o hrl (Or.inl hk)⟩
      | error e =>
        rw [hrl] at hok
        exact Except.noConfusion hok

/-- Witness for the amended C8: a first call whose counters contain only
the loopback interface returns empty network data yet stores the loopback
entry in the collector state. -/
theorem C8_loopback_excluded_but_stored_witness :
    netCollect none [("lo", ⟨1, 2, 3, 4, 5, 6, 7, 8⟩)] 5 =
      .ok ([], some ([("lo", ⟨1, 2, 3, 4, 5, 6, 7, 8⟩)], 5)) ∧
    alookup ([] : List (String × NetData)) "lo" = none := by
  have h2 : pyStartswith "lo" "lo" = true := by decide
  have hok : netCollect none [("lo", ⟨1, 2, 3, 4, 5, 6, 7, 8⟩)] 5 =
      .ok ([], some ([("lo", ⟨1, 2, 3, 4, 5, 6, 7, 8⟩)], 5)) := by
    simp [netCollect, netFirstRun, h2]
  exact ⟨hok,
    (C8_loopback_excluded_but_stored none [("lo", ⟨1, 2, 3, 4, 5, 6, 7, 8⟩)] 5
      [] (some ([("lo", ⟨1, 2, 3, 4, 5, 6, 7, 8⟩)], 5)) hok).2 "lo" h2⟩

theorem fetch_remote_config_200 (s : ConfigState) (r : ConfigResponse)
    (h200 : r.status = 200) :
    fetch_remote_config s r =
      if r.threshold_version.getD 0 > s.threshold_version then
        { remote_thresholds := r.thresholds.getD []
        , threshold_version := r.threshold_version.getD 0
        , config_check_interval := r.check_interval.getD 300 }
      else
        { s with config_check_interval := r.check_interval.getD 300 } := by
  unfold fetch_remote_config
  rw [if_pos h200]
  by_cases hv : r.threshold_version.getD 0 > s.threshold_version
  · simp only [if_pos hv]
  · simp only [if_neg hv]

/-- C3: a fetch returning HTTP 200 with threshold version v and set T
replaces the held threshold set wholesale by T and the held version by v
exactly when v is strictly greater than the held version; otherwise both
are left unchanged; and a second fetch carrying the same version leaves
the set installed by the first fetch in place (no overwrite on equal
version). -/
theorem C3_threshold_reconcile (s : ConfigState) (r r' : ConfigResponse)
    (h200 : r.status = 200) (h200' : r'.status = 200) :
    (r.threshold_version.getD 0 > s.threshold_version →
      (fetch_remote_config s r).remote_thresholds = r.thresholds.getD [] ∧
      (fetch_remote_config s r).threshold_version = r.threshold_version.getD 0) ∧
    (¬r.threshold_version.getD 0 > s.threshold_version →
      (fetch_remote_config s r).remote_thresholds = s.remote_thresholds ∧
      (fetch_remote_config s r).threshold_version = s.threshold_version) ∧
    (r'.threshold_version.getD 0 = r.threshold_version.getD 0 →
      (fetch_remote_config (fetch_remote_config s r) r').remote_thresholds =
        (fetch_remote_config s r).remote_thresholds ∧
      (fetch_remote_config (fetch_remote_config s r) r').threshold_version =
        (fetch_remote_config s r).threshold_version) := by
  have h1 := fetch_remote_config_200 s r h200
  by_cases hv : r.threshold_version.getD 0 > s.threshold_version
  · refine ⟨fun _ => ?_, fun h => absurd hv h, fun hsame => ?_⟩
    · rw [h1, if_pos hv]
      exact ⟨rfl, rfl⟩
    · have hver : (fetch_remote_config s r).threshold_version =
          r.threshold_version.getD 0 := by
        rw [h1, if_pos hv]
      have hnot : ¬r'.threshold_version.getD 0 >
          (fetch_remote_config s r).threshold_version := by
        rw [hver, hsame]
        omega
      rw [fetch_remote_config_200 (fetch_remote_config s r) r' h200', if_neg hnot]
      exact ⟨rfl, rfl⟩
  · refine ⟨fun h => absurd h hv, fun _ => ?_, fun hsame => ?_⟩
    · rw [h1, if_neg hv]
      exact ⟨rfl, rfl⟩
    · have hver : (fetch_remote_config s r).threshold_version =
          s.threshold_version := by
        rw [h1, if_neg hv]
      have hnot : ¬r'.threshold_version.getD 0 >
          (fetch_remote_config s r).threshold_version := by
        rw [hver, hsame]
        omega
      rw [fetch_remote_config_200 (fetch_remote_config s r) r' h200', if_neg hnot]
      exact ⟨rfl, rfl⟩

/-- Witness for C3 at the end-to-end example of the spec: version 1 with
local cpu 80, server version 2 with cpu 50 installs the new set; a second
fetch with the same version 2 and cpu 99 changes nothing. -/
theorem C3_threshold_reconcile_witness :
    (fetch_remote_config ⟨[("cpu", 80)], 1, 300⟩
      ⟨200, some 2, some [("cpu", 50)], none⟩).remote_thresholds = [("cpu", 50)] ∧
    (fetch_remote_config
      (fetch_remote_config ⟨[("cpu", 80)], 1, 300⟩ ⟨200, some 2, some [("cpu", 50)], none⟩)
      ⟨200, some 2, some [("cpu", 99)], none⟩).remote_thresholds = [("cpu", 50)] := by
  have h := C3_threshold_reconcile ⟨[("cpu", 80)], 1, 300⟩
    ⟨200, some 2, some [("cpu", 50)], none⟩ ⟨200, some 2, some [("cpu", 99)], none⟩ rfl rfl
  have h1 := (h.1 (by decide)).1
  have h3 := (h.2.2 rfl).1
  exact ⟨h1, h3.trans h1⟩

/-- C10: every fetch returning HTTP 200 overwrites the config-check
interval with the response check_interval (default 300 when absent), even
when the response threshold version is not strictly greater than the held
one — in which case the held thresholds and version stay unchanged. -/
theorem C10_check_interval_always_updated (s : ConfigState) (r : ConfigResponse)
    (h200 : r.status = 200) :
    (fetch_remote_config s r).config_check_interval = r.check_interval.getD 300 ∧
    (¬r.threshold_version.getD 0 > s.threshold_version →
      (fetch_remote_config s r).remote_thresholds = s.remote_thresholds ∧
      (fetch_remote_config s r).threshold_version = s.threshold_version) := by
  rw [fetch_remote_config_200 s r h200]
  by_cases hv : r.threshold_version.getD 0 > s.threshold_version
  · rw [if_pos hv]
    exact ⟨rfl, fun h => absurd hv h⟩
  · rw [if_neg hv]
    exact ⟨rfl, fun _ => ⟨rfl, rfl⟩⟩

/-- Witness for C10: a stale-version 200 response with check_interval 120
mutates only the check interval. -/
theorem C10_check_interval_always_updated_witness :
    (fetch_remote_config ⟨[("cpu", 50)], 2, 300⟩
      ⟨200, some 2, some [("cpu", 99)], some 120⟩).config_check_interval = 120 ∧
    (fetch_remote_config ⟨[("cpu", 50)], 2, 300⟩
      ⟨200, some 2, some [("cpu", 99)], some 120⟩).remote_thresholds = [("cpu", 50)] := by
  have h := C10_check_interval_always_updated ⟨[("cpu", 50)], 2, 300⟩
    ⟨200, some 2, some [("cpu", 99)], some 120⟩ rfl
  exact ⟨h.1, (h.2 (by decide)).1⟩

/-- C9: in every constructed active_thresholds block the source field is
"remote" exactly when the held remote threshold set is non-empty, and
"local" exactly when it is empty — independently of which metric keys the
set actually contains (remote and local_config are arbitrary here). -/
theorem C9_source_attribution (remote : List (String × ℚ))
    (local_config : String → Option ℚ) (v : ℤ) :
    ((active_thresholds remote local_config v).source = "remote" ↔ remote ≠ []) ∧
    ((active_thresholds remote local_config v).source = "local" ↔ remote = []) := by
  have hs1 : ("local" : String) ≠ "remote" := by decide
  have hs2 : ("remote" : String) ≠ "local" := by decide
  by_cases h : remote = []
  · subst h
    exact ⟨by simp [active_thresholds, hs1], by simp [active_thresholds]⟩
  · exact ⟨by simp [active_thresholds, h], by simp [active_thresholds, h, hs2]⟩

theorem buffer_add_length {M : Type} (buf : List M) (m : M) :
    (buffer_add buf m).length = buf.length + 1 - (buf.length + 1 - 100) := by
  simp [buffer_add, metric_buffer_max_size]

theorem buffer_foldl_add {M : Type} (ms : List M) (buf : List M)
    (hbuf : buf.length ≤ 100) :
    ms.foldl buffer_add buf = (buf ++ ms).drop (buf.length + ms.length - 100) := by
  induction ms generalizing buf with
  | nil =>
    simp only [List.foldl_nil, List.length_nil, List.append_nil, Nat.add_zero]
    have h0 : buf.length - 100 = 0 := by omega
    rw [h0, List.drop_zero]
  | cons m rest ih =>
    rw [List.foldl_cons]
    have hlen := buffer_add_length buf m
    have hle : (buffer_add buf m).length ≤ 100 := by omega
    rw [ih (buffer_add buf m) hle, hlen]
    have ha : buf.length + 1 - 100 ≤ (buf ++ [m]).length := by
      simp
      omega
    have hb : buffer_add buf m = (buf ++ [m]).drop (buf.length + 1 - 100) := rfl
    rw [hb, ← List.drop_append_of_le_length ha, List.drop_drop]
    rw [show (buf ++ [m]) ++ rest = buf ++ m :: rest by simp]
    congr 1
    simp only [List.length_cons]
    omega

theorem bufferApplyOp_length_le {M : Type} (buffer : List M) (op : BufferOp M)
    (h : buffer.length ≤ 100) : (bufferApplyOp buffer op).length ≤ 100 := by
  cases op with
  | push m =>
    show (buffer_add buffer m).length ≤ 100
    rw [buffer_add_length]
    omega
  | drain =>
    show (([] : List M)).length ≤ 100
    simp

theorem bufferApplyOps_length_le {M : Type} (ops : List (BufferOp M)) (buffer : List M)
    (h : buffer.length ≤ 100) : (ops.foldl bufferApplyOp buffer).length ≤ 100 := by
  induction ops generalizing buffer with
  | nil => simpa using h
  | cons op rest ih =>
    rw [List.foldl_cons]
    exact ih (bufferApplyOp buffer op) (bufferApplyOp_length_le buffer op h)

/-- C6: the MetricBuffer is a bounded FIFO of capacity 100: starting from
the empty buffer, no sequence of push/drain operations takes its size
above 100; a push at capacity evicts exactly the oldest entry and keeps
size 100; pushing up to 100 entries retains all of them in insertion
order; pushing 101 entries drops exactly the oldest; get_all returns the
entries in insertion order and empties the buffer; size is the occupancy. -/
theorem C6_bounded_fifo {M : Type} :
    (∀ ops : List (BufferOp M), (ops.foldl bufferApplyOp []).length ≤ 100) ∧
    (∀ (buffer : List M) (m : M), buffer.length = 100 →
      buffer_add buffer m = buffer.tail ++ [m] ∧ (buffer_add buffer m).length = 100) ∧
    (∀ ms : List M, ms.length ≤ 100 → ms.foldl buffer_add [] = ms) ∧
    (∀ ms : List M, ms.length = 100 + 1 → ms.foldl buffer_add [] = ms.tail) ∧
    (∀ buffer : List M, buffer_get_all buffer = (buffer, [])) ∧
    (∀ buffer : List M, buffer_size buffer = buffer.length) := by
  refine ⟨?_, ?_, ?_, ?_, fun _ => rfl, fun _ => rfl⟩
  · intro ops
    exact bufferApplyOps_length_le ops [] (by simp)
  · intro buffer m h
    constructor
    · show (buffer ++ [m]).drop (buffer.length + 1 - 100) = buffer.tail ++ [m]
      rw [h]
      have h1 : (100 : ℕ) + 1 - 100 = 1 := by norm_num
      rw [h1, List.drop_append_of_le_length (by omega), List.drop_one]
    · rw [buffer_add_length, h]
  · intro ms hms
    rw [buffer_foldl_add ms [] (by simp)]
    simp only [List.nil_append, List.length_nil, Nat.zero_add]
    have h0 : ms.length - 100 = 0 := by omega
    rw [h0, List.drop_zero]
  · intro ms hms
    rw [buffer_foldl_add ms [] (by simp)]
    simp only [List.nil_append, List.length_nil, Nat.zero_add]
    have h0 : ms.length - 100 = 1 := by omega
    rw [h0, List.drop_one]

/-- Witness for C6: a push at capacity 100 evicts the oldest entry, and
pushing three entries into the empty buffer keeps them in order. -/
theorem C6_bounded_fifo_witness :
    buffer_add (List.replicate 100 (0 : ℕ)) 7 =
      (List.replicate 100 (0 : ℕ)).tail ++ [7] ∧
    [1, 2, 3].foldl buffer_add ([] : List ℕ) = [1, 2, 3] := by
  constructor
  · exact ((@C6_bounded_fifo ℕ).2.1 (List.replicate 100 0) 7 (by simp)).1
  · exact (@C6_bounded_fifo ℕ).2.2.1 [1, 2, 3] (by norm_num)

/-- C4: on a delivery failure the consecutive-failure counter is
incremented and the failed snapshot is buffered exactly when the counter
is still below the ceiling of 5; from a clean state, six consecutive
failures leave only the first four snapshots buffered — the 5th and 6th
are dropped. -/
theorem C4_failure_buffering {M : Type} (deliver : M → Bool) (s : ReportState M)
    (m : M) (hfail : deliver m = false) :
    ((report_metrics deliver s m).1.consecutive_failures = s.consecutive_failures + 1) ∧
    ((report_metrics deliver s m).1.buffer =
      if s.consecutive_failures + 1 < max_consecutive_failures then buffer_add s.buffer m
      else s.buffer) ∧
    ((∀ x, deliver x = false) → ∀ m1 m2 m3 m4 m5 m6 : M,
      [m1, m2, m3, m4, m5, m6].foldl
          (fun st x => (report_metrics deliver st x).1) ⟨0, []⟩ =
        ⟨6, [m1, m2, m3, m4]⟩) := by
  refine ⟨?_, ?_, ?_⟩
  · by_cases hc : s.consecutive_failures + 1 < max_consecutive_failures <;>
      simp [report_metrics, hfail, hc]
  · by_cases hc : s.consecutive_failures + 1 < max_consecutive_failures <;>
      simp [report_metrics, hfail, hc]
  · intro hall m1 m2 m3 m4 m5 m6
    simp [report_metrics, hall, max_consecutive_failures, buffer_add,
      metric_buffer_max_size]

/-- Witness for C4: one failure from a clean state increments the counter,
and six failures buffer exactly the first four snapshots. -/
theorem C4_failure_buffering_witness :
    (report_metrics (fun _ => false) (⟨0, []⟩ : ReportState ℕ) 7).1.consecutive_failures =
      0 + 1 ∧
    [1, 2, 3, 4, 5, 6].foldl
        (fun st x => (report_metrics (fun _ => false) st x).1) (⟨0, []⟩ : ReportState ℕ) =
      ⟨6, [1, 2, 3, 4]⟩ := by
  have h := C4_failure_buffering (fun _ => false) (⟨0, []⟩ : ReportState ℕ) 7 rfl
  exact ⟨h.1, h.2.2 (fun _ => rfl) 1 2 3 4 5 6⟩

/-- C5: on a successful delivery the consecutive-failure counter resets to
zero, every buffered entry is drained and re-posted exactly once in
insertion order (after the main snapshot), and the buffer is empty
afterwards regardless of the redelivery outcomes (a failed re-post is not
re-added). -/
theorem C5_success_flush {M : Type} (deliver : M → Bool) (s : ReportState M) (m : M)
    (hok : deliver m = true) :
    (report_metrics deliver s m).1.consecutive_failures = 0 ∧
    (report_metrics deliver s m).1.buffer = [] ∧
    (report_metrics deliver s m).2 = m :: s.buffer := by
  by_cases hb : 0 < buffer_size s.buffer
  · simp [report_metrics, hok, hb, buffer_get_all]
  · have hnil : s.buffer = [] := by
      by_contra hne
      exact hb (List.length_pos.mpr hne)
    simp [report_metrics, hok, hnil, buffer_size]

/-- Witness for C5: a success with one buffered entry resets the counter,
empties the buffer and posts the snapshot followed by the buffered entry. -/
theorem C5_success_flush_witness :
    (report_metrics (fun _ => true) (⟨3, [9]⟩ : ReportState ℕ) 7).1.consecutive_failures = 0 ∧
    (report_metrics (fun _ => true) (⟨3, [9]⟩ : ReportState ℕ) 7).1.buffer = [] ∧
    (report_metrics (fun _ => true) (⟨3, [9]⟩ : ReportState ℕ) 7).2 = 7 :: [9] :=
  C5_success_flush (fun _ => true) (⟨3, [9]⟩ : ReportState ℕ) 7 rfl
